import Mathlib

/-!
Verification of the `wotw` inotify directory watcher (`src/wotw/inotify.py`).

The Python source is shallowly embedded:
* byte buffers are `List Nat` (each element a byte value),
* Python exceptions that the relevant code can raise (`struct.error`,
  `KeyError`, `UnicodeDecodeError`) are an explicit error type `PyError`,
* the stateful event queue is a `List` threaded explicitly,
* the kernel syscalls (`inotify_init`, `inotify_add_watch`) are stubbed by
  explicit result parameters, and the effectful parts of `watch` record a
  trace of the calls they make.
-/

/-- Errors the embedded Python code can raise: `struct.error` from
`struct.unpack` on a wrongly sized slice, `KeyError` from a dict lookup,
and `UnicodeDecodeError` from `bytes.decode("utf-8")`. -/
inductive PyError where
  | structError
  | keyError
  | unicodeDecodeError
deriving DecidableEq, Repr

-- The bit-mask constants of `class InotifyMasks(IntFlag)`.

/-- File was accessed -/
def IN_ACCESS : Nat := 0x00000001
/-- File was modified -/
def IN_MODIFY : Nat := 0x00000002
/-- Metadata changed -/
def IN_ATTRIB : Nat := 0x00000004
/-- Writtable file was closed -/
def IN_CLOSE_WRITE : Nat := 0x00000008
/-- Unwrittable file closed -/
def IN_CLOSE_NOWRITE : Nat := 0x00000010
/-- File was opened -/
def IN_OPEN : Nat := 0x00000020
/-- File was moved from X -/
def IN_MOVED_FROM : Nat := 0x00000040
/-- File was moved to Y -/
def IN_MOVED_TO : Nat := 0x00000080
/-- Subfile was created -/
def IN_CREATE : Nat := 0x00000100
/-- Subfile was deleted -/
def IN_DELETE : Nat := 0x00000200
/-- Self was deleted -/
def IN_DELETE_SELF : Nat := 0x00000400
/-- Self was moved -/
def IN_MOVE_SELF : Nat := 0x00000800
/-- Backing fs was unmounted -/
def IN_UNMOUNT : Nat := 0x00002000
/-- Event queued overflowed -/
def IN_Q_OVERFLOW : Nat := 0x00004000
/-- File was ignored -/
def IN_IGNORED : Nat := 0x00008000
/-- only watch the path if it is a directory -/
def IN_ONLYDIR : Nat := 0x01000000
/-- don't follow a sym link -/
def IN_DONT_FOLLOW : Nat := 0x02000000
/-- exclude events on unlinked objects -/
def IN_EXCL_UNLINK : Nat := 0x04000000
/-- only create watches -/
def IN_MASK_CREATE : Nat := 0x10000000
/-- add to the mask of an already existing watch -/
def IN_MASK_ADD : Nat := 0x20000000
/-- event occurred against dir -/
def IN_ISDIR : Nat := 0x40000000
/-- only send event once -/
def IN_ONESHOT : Nat := 0x80000000
/-- helper event: close -/
def IN_CLOSE : Nat := IN_CLOSE_WRITE ||| IN_CLOSE_NOWRITE
/-- helper event: moves -/
def IN_MOVE : Nat := IN_MOVED_FROM ||| IN_MOVED_TO
/-- All of the events, exactly as the source ORs them together. -/
def IN_ALL_EVENTS : Nat :=
  IN_ACCESS ||| IN_MODIFY ||| IN_ATTRIB ||| IN_CLOSE_WRITE ||| IN_CLOSE_NOWRITE |||
  IN_OPEN ||| IN_MOVED_FROM ||| IN_MOVED_TO ||| IN_DELETE ||| IN_CREATE |||
  IN_DELETE_SELF ||| IN_MOVE_SELF

/-- The `InotifyMaskNames` dict, as an association list in the source's
insertion order.  Its keys are exactly the 22 individually defined single-bit
flags (the composite helpers `IN_CLOSE`, `IN_MOVE`, `IN_ALL_EVENTS` are not
keys of the dict). -/
def maskNamesList : List (Nat × String) :=
  [(IN_ACCESS, "File was accessed"),
   (IN_MODIFY, "File was modified"),
   (IN_ATTRIB, "Metadata changed"),
   (IN_CLOSE_WRITE, "File was closed and written to"),
   (IN_CLOSE_NOWRITE, "File was closed and not written to"),
   (IN_OPEN, "File was opened"),
   (IN_MOVED_FROM, "File was moved from X"),
   (IN_MOVED_TO, "File was moved to Y"),
   (IN_CREATE, "Subfile was created"),
   (IN_DELETE, "Subfile was deleted"),
   (IN_DELETE_SELF, "Self was deleted"),
   (IN_MOVE_SELF, "Self was moved"),
   (IN_UNMOUNT, "Backing fs was unmounted"),
   (IN_Q_OVERFLOW, "Event queued overflowed"),
   (IN_IGNORED, "File was ignored"),
   (IN_ONLYDIR, "Only watch the path if it is a directory"),
   (IN_DONT_FOLLOW, "Don\x27t follow a sym link"),
   (IN_EXCL_UNLINK, "Exclude events on unlinked objects"),
   (IN_MASK_CREATE, "Only create watches"),
   (IN_MASK_ADD, "Add to the mask of an already existing watch"),
   (IN_ISDIR, "Event occurred against dir"),
   (IN_ONESHOT, "Only send event once")]

/-- The `for item in masks` loop of `mask_to_event_names`, over the remaining
bit indices.  For each index whose bit is set in `mask`, the source does an
unguarded dict lookup `InotifyMaskNames[item]`; a missing key raises
`KeyError`, which aborts the whole call. -/
def maskNamesLoop (mask : Nat) : List Nat → Except PyError (List String)
  | [] => Except.ok []
  | idx :: rest =>
    if mask &&& 2 ^ idx > 0 then
      match List.lookup (2 ^ idx) maskNamesList with
      | some nm =>
        match maskNamesLoop mask rest with
        | Except.ok names => Except.ok (nm :: names)
        | Except.error e => Except.error e
      | none => Except.error PyError.keyError
    else maskNamesLoop mask rest

/-- `mask_to_event_names(mask)`: walks `[2**idx for idx in range(32)]` in
increasing order and collects `InotifyMaskNames[2**idx]` for every set bit. -/
def mask_to_event_names (mask : Nat) : Except PyError (List String) :=
  maskNamesLoop mask (List.range 32)

/-- The list of catalog names of the set bits of `mask`, bit positions
examined in increasing order, with undefined bits skipped.  This is what
`mask_to_event_names` returns whenever it does not raise. -/
def eventNamesOf (mask : Nat) : List String :=
  (List.range 32).filterMap
    (fun idx => if mask &&& 2 ^ idx > 0 then List.lookup (2 ^ idx) maskNamesList else none)

/-- The `InotifyEvent` named tuple. -/
structure InotifyEvent where
  wd : Int
  mask : Nat
  cookie : Nat
  len : Nat
  filename : String
  events : List String
deriving DecidableEq, Repr

/-- Little-endian 32-bit value of four bytes, as `struct.unpack` reads an
`i`/`I` field on a little-endian machine. -/
def le32 (b0 b1 b2 b3 : Nat) : Nat :=
  b0 + 256 * b1 + 65536 * b2 + 16777216 * b3

/-- Reinterpret an unsigned 32-bit value as the signed `i` field
(two's complement), as `struct.unpack("i", ...)` does. -/
def toI32 (n : Nat) : Int :=
  if n < 2 ^ 31 then (n : Int) else (n : Int) - 2 ^ 32

/-- `filename.rstrip(b"\x00")`: remove all trailing NUL bytes. -/
def rstripNul (bs : List Nat) : List Nat :=
  (bs.reverse.dropWhile (fun b => b == 0)).reverse

/-- A UTF-8 continuation byte (`0x80`–`0xBF`). -/
def contByte (c : Nat) : Bool := 128 ≤ c && c ≤ 191

/-- Strict UTF-8 decoding of a byte sequence, as `bytes.decode("utf-8")`:
rejects overlong encodings, surrogates, code points above `U+10FFFF`, and
stray or missing continuation bytes; `none` models `UnicodeDecodeError`. -/
def utf8Decode : List Nat → Option (List Char)
  | [] => some []
  | b :: rest =>
    if b ≤ 0x7F then
      match utf8Decode rest with
      | some cs => some (Char.ofNat b :: cs)
      | none => none
    else if b < 0xC2 then none
    else if b ≤ 0xDF then
      match rest with
      | c1 :: rest2 =>
        if contByte c1 then
          match utf8Decode rest2 with
          | some cs => some (Char.ofNat ((b - 0xC0) * 64 + (c1 - 0x80)) :: cs)
          | none => none
        else none
      | [] => none
    else if b ≤ 0xEF then
      match rest with
      | c1 :: c2 :: rest3 =>
        if (if b = 0xE0 then 160 ≤ c1 && c1 ≤ 191
            else if b = 0xED then 128 ≤ c1 && c1 ≤ 159
            else contByte c1) && contByte c2 then
          match utf8Decode rest3 with
          | some cs =>
            some (Char.ofNat ((b - 0xE0) * 4096 + (c1 - 0x80) * 64 + (c2 - 0x80)) :: cs)
          | none => none
        else none
      | _ => none
    else if b ≤ 0xF4 then
      match rest with
      | c1 :: c2 :: c3 :: rest4 =>
        if (if b = 0xF0 then 144 ≤ c1 && c1 ≤ 191
            else if b = 0xF4 then 128 ≤ c1 && c1 ≤ 143
            else contByte c1) && contByte c2 && contByte c3 then
          match utf8Decode rest4 with
          | some cs =>
            some (Char.ofNat ((b - 0xF0) * 262144 + (c1 - 0x80) * 4096 +
              (c2 - 0x80) * 64 + (c3 - 0x80)) :: cs)
          | none => none
        else none
      | _ => none
    else none

/-- The string produced by decoding `bs` as UTF-8 (meaningful when
`utf8Decode bs` succeeds). -/
def decodeName (bs : List Nat) : String :=
  match utf8Decode bs with
  | some cs => String.mk cs
  | none => ""

deriving instance DecidableEq for Except

/-- Whether an `Except` result is a success. -/
def exceptIsOk : Except PyError (List String) → Bool
  | Except.ok _ => true
  | Except.error _ => false

/-- The success value of an `Except` result (default `[]`). -/
def exceptD : Except PyError (List String) → List String
  | Except.ok v => v
  | Except.error _ => []

/-- The `while buffer_i < len(event_buffer)` loop of `read_events`, acting on
the not-yet-consumed suffix of the buffer.  One iteration:
`struct.unpack("iIII", buf[i:i+16])` (raises `struct.error` unless 16 bytes
remain, hence the 16-byte head pattern), then
`struct.unpack("%ds" % fname_len, buf[i+16:i+16+fname_len])` (raises
`struct.error` unless the slice really has `fname_len` bytes), then
`rstrip(b"\x00")`, then `mask_to_event_names` (may raise `KeyError`), then
`.decode("utf-8")` (may raise `UnicodeDecodeError`), then the event is
enqueued and the cursor advances by `16 + fname_len`.  The result is the list
of enqueued events plus the exception that aborted the loop, if any.
The fuel argument only forces structural recursion; it never runs out when it
starts at the buffer length, since each iteration consumes at least 16
bytes. -/
def decodeSteps : Nat → List Nat → List InotifyEvent × Option PyError
  | _, [] => ([], none)
  | 0, _ :: _ => ([], none)
  | fuel + 1, a0 :: a1 :: a2 :: a3 :: b0 :: b1 :: b2 :: b3 ::
      c0 :: c1 :: c2 :: c3 :: d0 :: d1 :: d2 :: d3 :: rest =>
    if (rest.take (le32 d0 d1 d2 d3)).length = le32 d0 d1 d2 d3 then
      match mask_to_event_names (le32 b0 b1 b2 b3) with
      | Except.error e => ([], some e)
      | Except.ok eventNames =>
        match utf8Decode (rstripNul (rest.take (le32 d0 d1 d2 d3))) with
        | none => ([], some PyError.unicodeDecodeError)
        | some cs =>
          (InotifyEvent.mk (toI32 (le32 a0 a1 a2 a3)) (le32 b0 b1 b2 b3)
              (le32 c0 c1 c2 c3) (le32 d0 d1 d2 d3) (String.mk cs) eventNames ::
            (decodeSteps fuel (rest.drop (le32 d0 d1 d2 d3))).1,
           (decodeSteps fuel (rest.drop (le32 d0 d1 d2 d3))).2)
    else ([], some PyError.structError)
  | _ + 1, _ :: _ => ([], some PyError.structError)

/-- The buffer walk of `read_events` on a whole buffer: the events decoded
(and enqueued) in order, together with the exception that aborted decoding,
if any. -/
def decodeLoop (buf : List Nat) : List InotifyEvent × Option PyError :=
  decodeSteps buf.length buf

/-- `read_events(event_queue, fd)` after `os.read` returned `buf`: the decoded
events are appended to the queue in decode order; the second component is the
exception that escaped, if any. -/
def read_events (q : List InotifyEvent) (buf : List Nat) :
    List InotifyEvent × Option PyError :=
  (q ++ (decodeLoop buf).1, (decodeLoop buf).2)

/-- The queue contents after a sequence of reads delivering the given buffers,
starting from an empty queue. -/
def read_all (bufs : List (List Nat)) : List InotifyEvent :=
  bufs.foldl (fun q b => (read_events q b).1) []

/-- `handle_events(q, watches, event_handler)`: drains the queue in FIFO order;
for each event it evaluates `watches[event.wd]` (raising `KeyError` when the
handle is absent, which aborts the drain) and then calls the handler with the
event and the resolved directory.  The result is the trace of handler
invocations plus the exception, if any. -/
def handle_events : List InotifyEvent → List (Int × String) →
    List (InotifyEvent × String) × Option PyError
  | [], _ => ([], none)
  | e :: rest, watches =>
    match List.lookup e.wd watches with
    | none => ([], some PyError.keyError)
    | some dir =>
      ((e, dir) :: (handle_events rest watches).1, (handle_events rest watches).2)

/-- A synthetic wire record, as in the kernel wire format: a fixed header
`{handle: i32 (given by its raw unsigned 32-bit value), mask: u32,
cookie: u32, nameLen: u32}` followed by `nameLen` NUL-padded name bytes
(`name` holds exactly the `nameLen` bytes, padding included). -/
structure RawRecord where
  wd : Nat
  mask : Nat
  cookie : Nat
  name : List Nat
deriving DecidableEq, Repr

/-- Well-formedness of a synthetic record: the header fields fit in 32 bits
and the name consists of bytes. -/
def RawRecord.wf (r : RawRecord) : Prop :=
  r.wd < 2 ^ 32 ∧ r.mask < 2 ^ 32 ∧ r.cookie < 2 ^ 32 ∧
    r.name.length < 2 ^ 32 ∧ ∀ b ∈ r.name, b < 256

instance (r : RawRecord) : Decidable r.wf := by
  unfold RawRecord.wf
  infer_instance

/-- Little-endian bytes of an unsigned 32-bit value. -/
def encodeU32 (n : Nat) : List Nat :=
  [n % 256, n / 256 % 256, n / 65536 % 256, n / 16777216 % 256]

/-- The packed 16-byte fixed header `{wd, mask, cookie, nameLen}`. -/
def encodeHeader (wd mask cookie nameLen : Nat) : List Nat :=
  encodeU32 wd ++ encodeU32 mask ++ encodeU32 cookie ++ encodeU32 nameLen

/-- The packed bytes of one record: fixed header plus name bytes. -/
def encodeRecord (r : RawRecord) : List Nat :=
  encodeHeader r.wd r.mask r.cookie r.name.length ++ r.name

/-- A well-formed buffer: the back-to-back concatenation of the packed
records, with no separator and no leading count. -/
def encodeBuffer (recs : List RawRecord) : List Nat :=
  (recs.map encodeRecord).flatten

/-- The `InotifyEvent` the decoder builds for a record: the header fields,
the name with trailing NULs stripped and decoded as UTF-8, and the catalog
names of the mask's bits. -/
def expectedEvent (r : RawRecord) : InotifyEvent :=
  InotifyEvent.mk (toI32 r.wd) r.mask r.cookie r.name.length
    (decodeName (rstripNul r.name)) (exceptD (mask_to_event_names r.mask))

-- The `watch` entry point, with the kernel syscalls stubbed.

/-- The `directories` argument of `watch`: a single `Path` or a list. -/
inductive Dirs where
  | single (d : String)
  | many (ds : List String)

/-- The `isinstance(directories, Path)` normalization at the top of
`watch`. -/
def normalizeDirs : Dirs → List String
  | Dirs.single d => [d]
  | Dirs.many ds => ds

/-- The mask used for registration: `IN_ALL_EVENTS` when the caller passed
`watch_for=None`, the caller's mask otherwise. -/
def watchMaskFor (watch_for : Option Nat) : Nat :=
  match watch_for with
  | none => IN_ALL_EVENTS
  | some m => m

/-- Python dict assignment `d[k] = v`: overwrite in place, else append. -/
def dictInsert (m : List (Int × String)) (k : Int) (v : String) :
    List (Int × String) :=
  if (List.lookup k m).isSome then
    m.map (fun p => if p.1 = k then (k, v) else p)
  else m ++ [(k, v)]

/-- State after the `for dir in directories` registration loop of `watch`. -/
structure AddOutcome where
  calls : List (String × Nat)
  ws : List (Int × String)
  lastWd : Option Int
  failed : Bool
deriving DecidableEq, Repr

/-- The registration loop of `watch`: for each directory, call
`inotify_add_watch` (stubbed by `addResult` applied to the call index); on a
negative result raise `OSError` immediately (no cleanup), otherwise record
`watches[wd] = dir` and continue.  Accumulators: calls made so far, the
watches dict, and the last successful `wd` (the loop variable's final
value). -/
def addWatches (masks : Nat) (addResult : Nat → Int) :
    List String → Nat → List (String × Nat) → List (Int × String) →
    Option Int → AddOutcome
  | [], _, calls, ws, lastWd => AddOutcome.mk calls ws lastWd false
  | d :: rest, k, calls, ws, lastWd =>
    if addResult k < 0 then AddOutcome.mk (calls ++ [(d, masks)]) ws lastWd true
    else
      addWatches masks addResult rest (k + 1) (calls ++ [(d, masks)])
        (dictInsert ws (addResult k) d) (some (addResult k))

/-- How one call to `watch` exits. -/
inductive WatchError where
  | initFailed
  | watchFailed
  | loopError (e : PyError)
  | nameError
deriving DecidableEq, Repr

/-- Observable outcome of a `watch` call: the `inotify_add_watch` calls made,
the final watches dict, the `inotify_rm_watch` calls made, whether the
kernel endpoint fd was closed, and how the call exited (`none` = returned). -/
structure WatchResult where
  addCalls : List (String × Nat)
  watches : List (Int × String)
  rmCalls : List Int
  closed : Bool
  outcome : Option WatchError
deriving DecidableEq, Repr

/-- `watch(directories, event_handler, watch_for)` with the kernel stubbed:
`initResult` is what `inotify_init()` returns, `addResult k` is what the
`k`-th `inotify_add_watch` call returns, and `loopOutcome` is how
`process_inotify_events` ends (`none` = returns after `KeyboardInterrupt`,
`some e` = the exception `e` escapes it).  Control flow follows the source:
the registration loop runs before the `try`, so a failing registration
raises with no cleanup; the `finally` removes only the last-added watch and
then closes the fd; with an empty directory list the `finally` hits an
unbound loop variable (`NameError`) before closing the fd. -/
def watchRun (directories : Dirs) (watch_for : Option Nat) (initResult : Int)
    (addResult : Nat → Int) (loopOutcome : Option PyError) : WatchResult :=
  if initResult > 0 then
    let st := addWatches (watchMaskFor watch_for) addResult
      (normalizeDirs directories) 0 [] [] none
    if st.failed then
      WatchResult.mk st.calls st.ws [] false (some WatchError.watchFailed)
    else
      match st.lastWd with
      | none => WatchResult.mk st.calls st.ws [] false (some WatchError.nameError)
      | some wd =>
        WatchResult.mk st.calls st.ws [wd] true (loopOutcome.map WatchError.loopError)
  else WatchResult.mk [] [] [] false (some WatchError.initFailed)

-- Concrete records and events used by the witnesses and counterexamples.

/-- The spec's example record: `nameLen = 16`,
name `"file.txt"` + 8 NUL padding bytes, mask `IN_CREATE`. -/
def sampleRecord : RawRecord :=
  RawRecord.mk 1 256 0 [102, 105, 108, 101, 46, 116, 120, 116, 0, 0, 0, 0, 0, 0, 0, 0]

/-- A record whose mask has only bit 12 (`0x1000`) set, a bit with no
catalog entry. -/
def badMaskRecord : RawRecord := RawRecord.mk 0 4096 0 []

/-- A record whose single name byte `0xFF` is not valid UTF-8. -/
def badNameRecord : RawRecord := RawRecord.mk 1 0 0 [255]

/-- A queue-overflow record as the kernel delivers it: `wd = -1`,
mask `IN_Q_OVERFLOW`, no name. -/
def overflowEvent : InotifyEvent :=
  InotifyEvent.mk (-1) 16384 0 0 "" ["Event queued overflowed"]

/-- A decoded event whose handle is absent from the registry `[(1, "d")]`. -/
def unknownEvent : InotifyEvent :=
  InotifyEvent.mk 7 2 0 0 "" ["File was modified"]

/-- A decoded event whose handle is present in the registry `[(1, "d")]`. -/
def knownEvent : InotifyEvent :=
  InotifyEvent.mk 1 2 0 0 "" ["File was modified"]

/-- A one-record buffer: `wd = 1`, `mask = IN_ACCESS`, `cookie = 0`,
`nameLen = 0`. -/
def sampleBuffer : List Nat :=
  [1, 0, 0, 0, 1, 0, 0, 0, 0, 0, 0, 0, 0, 0, 0, 0]

-- Helper lemmas about the decoder.

theorem encode_le32 (n : Nat) (h : n < 2 ^ 32) :
    le32 (n % 256) (n / 256 % 256) (n / 65536 % 256) (n / 16777216 % 256) = n := by
  unfold le32
  omega

theorem decodeLoop_nil : decodeLoop [] = ([], none) := rfl

theorem decodeSteps_short (f : Nat) (tail : List Nat) (hne : tail ≠ [])
    (hlt : tail.length < 16) :
    decodeSteps (f + 1) tail = ([], some PyError.structError) := by
  rcases tail with _ | ⟨t0, tail⟩
  · exact absurd rfl hne
  rcases tail with _ | ⟨t1, tail⟩
  · rfl
  rcases tail with _ | ⟨t2, tail⟩
  · rfl
  rcases tail with _ | ⟨t3, tail⟩
  · rfl
  rcases tail with _ | ⟨t4, tail⟩
  · rfl
  rcases tail with _ | ⟨t5, tail⟩
  · rfl
  rcases tail with _ | ⟨t6, tail⟩
  · rfl
  rcases tail with _ | ⟨t7, tail⟩
  · rfl
  rcases tail with _ | ⟨t8, tail⟩
  · rfl
  rcases tail with _ | ⟨t9, tail⟩
  · rfl
  rcases tail with _ | ⟨t10, tail⟩
  · rfl
  rcases tail with _ | ⟨t11, tail⟩
  · rfl
  rcases tail with _ | ⟨t12, tail⟩
  · rfl
  rcases tail with _ | ⟨t13, tail⟩
  · rfl
  rcases tail with _ | ⟨t14, tail⟩
  · rfl
  rcases tail with _ | ⟨t15, tail⟩
  · rfl
  exfalso
  simp only [List.length_cons] at hlt
  omega

theorem decodeSteps_sufficient (f : Nat) :
    ∀ l : List Nat, l.length ≤ f → decodeSteps f l = decodeSteps l.length l := by
  induction f using Nat.strong_induction_on with
  | _ f IH =>
    intro l hl
    by_cases hnil : l = []
    · subst hnil
      cases f <;> rfl
    have hpos : 0 < l.length := List.length_pos.mpr hnil
    by_cases hshort : l.length < 16
    · obtain ⟨g, rfl⟩ : ∃ g, f = g + 1 := ⟨f - 1, by omega⟩
      obtain ⟨k, hk⟩ : ∃ k, l.length = k + 1 := ⟨l.length - 1, by omega⟩
      rw [decodeSteps_short g l hnil hshort, hk,
        decodeSteps_short k l hnil (by omega)]
    rcases l with _ | ⟨t0, l⟩
    · exact absurd rfl hnil
    rcases l with _ | ⟨t1, l⟩
    · exact absurd (by simp) hshort
    rcases l with _ | ⟨t2, l⟩
    · exact absurd (by simp) hshort
    rcases l with _ | ⟨t3, l⟩
    · exact absurd (by simp) hshort
    rcases l with _ | ⟨t4, l⟩
    · exact absurd (by simp) hshort
    rcases l with _ | ⟨t5, l⟩
    · exact absurd (by simp) hshort
    rcases l with _ | ⟨t6, l⟩
    · exact absurd (by simp) hshort
    rcases l with _ | ⟨t7, l⟩
    · exact absurd (by simp) hshort
    rcases l with _ | ⟨t8, l⟩
    · exact absurd (by simp) hshort
    rcases l with _ | ⟨t9, l⟩
    · exact absurd (by simp) hshort
    rcases l with _ | ⟨t10, l⟩
    · exact absurd (by simp) hshort
    rcases l with _ | ⟨t11, l⟩
    · exact absurd (by simp) hshort
    rcases l with _ | ⟨t12, l⟩
    · exact absurd (by simp) hshort
    rcases l with _ | ⟨t13, l⟩
    · exact absurd (by simp) hshort
    rcases l with _ | ⟨t14, l⟩
    · exact absurd (by simp) hshort
    rcases l with _ | ⟨t15, rest⟩
    · exact absurd (by simp) hshort
    simp only [List.length_cons] at hl hshort ⊢
    obtain ⟨g, rfl⟩ : ∃ g, f = g + 1 := ⟨f - 1, by omega⟩
    have hlen : rest.length + 1 + 1 + 1 + 1 + 1 + 1 + 1 + 1 + 1 + 1 + 1 + 1 + 1 + 1 + 1 + 1 =
        (rest.length + 15) + 1 := by omega
    rw [hlen]
    simp only [decodeSteps]
    by_cases hc : (rest.take (le32 t12 t13 t14 t15)).length = le32 t12 t13 t14 t15
    · simp only [if_pos hc]
      cases hm : mask_to_event_names (le32 t4 t5 t6 t7) with
      | error e => rfl
      | ok ns =>
        cases hu : utf8Decode (rstripNul (rest.take (le32 t12 t13 t14 t15))) with
        | none => rfl
        | some cs =>
          have hd : (rest.drop (le32 t12 t13 t14 t15)).length ≤ rest.length := by
            simp [List.length_drop]
          rw [IH g (by omega) (rest.drop (le32 t12 t13 t14 t15)) (by omega),
            IH (rest.length + 15) (by omega) (rest.drop (le32 t12 t13 t14 t15)) (by omega)]
    · simp only [if_neg hc]

theorem decodeSteps_record (f : Nat) (r : RawRecord) (t : List Nat) (hwf : r.wf)
    (hf : r.name.length + t.length ≤ f) :
    decodeSteps (f + 1) (encodeRecord r ++ t) =
      (match mask_to_event_names r.mask with
       | Except.error e => ([], some e)
       | Except.ok ns =>
         match utf8Decode (rstripNul r.name) with
         | none => ([], some PyError.unicodeDecodeError)
         | some cs =>
           (InotifyEvent.mk (toI32 r.wd) r.mask r.cookie r.name.length (String.mk cs) ns ::
              (decodeLoop t).1, (decodeLoop t).2)) := by
  obtain ⟨h1, h2, h3, h4, -⟩ := hwf
  have hL : encodeRecord r ++ t =
      r.wd % 256 :: r.wd / 256 % 256 :: r.wd / 65536 % 256 :: r.wd / 16777216 % 256 ::
      r.mask % 256 :: r.mask / 256 % 256 :: r.mask / 65536 % 256 :: r.mask / 16777216 % 256 ::
      r.cookie % 256 :: r.cookie / 256 % 256 :: r.cookie / 65536 % 256 ::
      r.cookie / 16777216 % 256 ::
      r.name.length % 256 :: r.name.length / 256 % 256 :: r.name.length / 65536 % 256 ::
      r.name.length / 16777216 % 256 :: (r.name ++ t) := by
    simp [encodeRecord, encodeHeader, encodeU32]
  rw [hL]
  simp only [decodeSteps]
  rw [encode_le32 r.wd h1, encode_le32 r.mask h2, encode_le32 r.cookie h3,
    encode_le32 r.name.length h4, List.take_left r.name t, List.drop_left r.name t,
    if_pos rfl, decodeSteps_sufficient f t (by omega)]
  rfl

theorem decodeLoop_cons_eval (r : RawRecord) (t : List Nat) (hwf : r.wf) :
    decodeLoop (encodeRecord r ++ t) =
      (match mask_to_event_names r.mask with
       | Except.error e => ([], some e)
       | Except.ok ns =>
         match utf8Decode (rstripNul r.name) with
         | none => ([], some PyError.unicodeDecodeError)
         | some cs =>
           (InotifyEvent.mk (toI32 r.wd) r.mask r.cookie r.name.length (String.mk cs) ns ::
              (decodeLoop t).1, (decodeLoop t).2)) := by
  have hlen : (encodeRecord r ++ t).length = (15 + r.name.length + t.length) + 1 := by
    simp [encodeRecord, encodeHeader, encodeU32]
    omega
  unfold decodeLoop
  rw [hlen]
  exact decodeSteps_record _ r t hwf (by omega)

theorem decodeLoop_step_ok (r : RawRecord) (t : List Nat) (hwf : r.wf)
    (ns : List String) (cs : List Char)
    (hm : mask_to_event_names r.mask = Except.ok ns)
    (hu : utf8Decode (rstripNul r.name) = some cs) :
    decodeLoop (encodeRecord r ++ t) =
      (expectedEvent r :: (decodeLoop t).1, (decodeLoop t).2) := by
  rw [decodeLoop_cons_eval r t hwf, hm, hu]
  have hn : decodeName (rstripNul r.name) = String.mk cs := by
    unfold decodeName
    rw [hu]
  simp [expectedEvent, hn, exceptD, hm]

theorem decodeLoop_step_badmask (r : RawRecord) (t : List Nat) (hwf : r.wf)
    (e : PyError) (hm : mask_to_event_names r.mask = Except.error e) :
    decodeLoop (encodeRecord r ++ t) = ([], some e) := by
  rw [decodeLoop_cons_eval r t hwf, hm]

theorem decodeLoop_step_badname (r : RawRecord) (t : List Nat) (hwf : r.wf)
    (ns : List String) (hm : mask_to_event_names r.mask = Except.ok ns)
    (hu : utf8Decode (rstripNul r.name) = none) :
    decodeLoop (encodeRecord r ++ t) = ([], some PyError.unicodeDecodeError) := by
  rw [decodeLoop_cons_eval r t hwf, hm, hu]

theorem encodeBuffer_cons (r : RawRecord) (recs : List RawRecord) :
    encodeBuffer (r :: recs) = encodeRecord r ++ encodeBuffer recs := by
  simp [encodeBuffer]

theorem exceptIsOk_exists (x : Except PyError (List String))
    (h : exceptIsOk x = true) : ∃ ns, x = Except.ok ns := by
  cases x with
  | ok v => exact ⟨v, rfl⟩
  | error e => simp [exceptIsOk] at h

theorem decodeLoop_encode_append (recs : List RawRecord) (t : List Nat)
    (hwf : ∀ r ∈ recs, r.wf)
    (hmask : ∀ r ∈ recs, exceptIsOk (mask_to_event_names r.mask) = true)
    (hname : ∀ r ∈ recs, (utf8Decode (rstripNul r.name)).isSome = true) :
    decodeLoop (encodeBuffer recs ++ t) =
      (recs.map expectedEvent ++ (decodeLoop t).1, (decodeLoop t).2) := by
  induction recs with
  | nil => simp [encodeBuffer]
  | cons r rest ih =>
    obtain ⟨ns, hns⟩ := exceptIsOk_exists _ (hmask r (by simp))
    obtain ⟨cs, hcs⟩ := Option.isSome_iff_exists.mp (hname r (by simp))
    rw [encodeBuffer_cons, List.append_assoc,
      decodeLoop_step_ok r (encodeBuffer rest ++ t) (hwf r (by simp)) ns cs hns hcs,
      ih (fun x hx => hwf x (by simp [hx])) (fun x hx => hmask x (by simp [hx]))
        (fun x hx => hname x (by simp [hx]))]
    simp

theorem handle_events_resolved (watches : List (Int × String)) (dirOf : Int → String) :
    ∀ evs : List InotifyEvent,
      (∀ e ∈ evs, List.lookup e.wd watches = some (dirOf e.wd)) →
      handle_events evs watches = (evs.map (fun e => (e, dirOf e.wd)), none) := by
  intro evs
  induction evs with
  | nil => intro _; rfl
  | cons e rest ih =>
    intro h
    have he := h e (by simp)
    have hr := ih (fun x hx => h x (by simp [hx]))
    simp [handle_events, he, hr]

theorem read_all_foldl (bufs : List (List Nat)) :
    ∀ q : List InotifyEvent,
      bufs.foldl (fun q b => (read_events q b).1) q =
        q ++ (bufs.map (fun b => (decodeLoop b).1)).flatten := by
  induction bufs with
  | nil => intro q; simp
  | cons b rest ih =>
    intro q
    simp only [List.foldl_cons, List.map_cons, List.flatten_cons]
    rw [show (read_events q b).1 = q ++ (decodeLoop b).1 from rfl, ih,
      List.append_assoc]

theorem read_all_eq (bufs : List (List Nat)) :
    read_all bufs = (bufs.map (fun b => (decodeLoop b).1)).flatten := by
  unfold read_all
  rw [read_all_foldl]
  simp

theorem maskNamesLoop_ok (mask : Nat) :
    ∀ idxs : List Nat,
      (∀ idx ∈ idxs, mask &&& 2 ^ idx > 0 →
        (List.lookup (2 ^ idx) maskNamesList).isSome = true) →
      maskNamesLoop mask idxs = Except.ok (idxs.filterMap
        (fun idx => if mask &&& 2 ^ idx > 0 then
          List.lookup (2 ^ idx) maskNamesList else none)) := by
  intro idxs
  induction idxs with
  | nil => intro _; rfl
  | cons idx rest ih =>
    intro h
    have hr := ih (fun x hx hb => h x (by simp [hx]) hb)
    by_cases hbit : mask &&& 2 ^ idx > 0
    · obtain ⟨nm, hnm⟩ := Option.isSome_iff_exists.mp (h idx (by simp) hbit)
      simp [maskNamesLoop, hbit, hnm, hr, List.filterMap_cons]
    · simp [maskNamesLoop, hbit, hr, List.filterMap_cons]

theorem maskNamesLoop_err (mask : Nat) :
    ∀ idxs : List Nat,
      (∃ idx ∈ idxs, mask &&& 2 ^ idx > 0 ∧
        List.lookup (2 ^ idx) maskNamesList = none) →
      maskNamesLoop mask idxs = Except.error PyError.keyError := by
  intro idxs
  induction idxs with
  | nil => rintro ⟨idx, h, -⟩; cases h
  | cons idx rest ih =>
    rintro ⟨i, hi, hib, hinone⟩
    by_cases hbit : mask &&& 2 ^ idx > 0
    · cases hlk : List.lookup (2 ^ idx) maskNamesList with
      | none => simp [maskNamesLoop, hbit, hlk]
      | some nm =>
        have hrest : i ∈ rest := by
          rcases List.mem_cons.mp hi with h | h
          · subst h
            rw [hlk] at hinone
            cases hinone
          · exact h
        rw [maskNamesLoop]
        simp [hbit, hlk, ih ⟨i, hrest, hib, hinone⟩]
    · have hrest : i ∈ rest := by
        rcases List.mem_cons.mp hi with h | h
        · subst h
          exact absurd hib hbit
        · exact h
      rw [maskNamesLoop]
      simp [hbit, ih ⟨i, hrest, hib, hinone⟩]

theorem addWatches_fail (masks : Nat) (ar : Nat → Int) :
    ∀ (dirs : List String) (k0 : Nat) (calls : List (String × Nat))
      (ws : List (Int × String)) (lw : Option Int) (k : Nat),
      k < dirs.length → (∀ j, j < k → 0 ≤ ar (k0 + j)) → ar (k0 + k) < 0 →
      (addWatches masks ar dirs k0 calls ws lw).failed = true := by
  intro dirs
  induction dirs with
  | nil =>
    intro k0 calls ws lw k hk
    cases hk
  | cons d rest ih =>
    intro k0 calls ws lw k hk hpre hfail
    cases k with
    | zero =>
      have h0 : ar k0 < 0 := by simpa using hfail
      simp [addWatches, h0]
    | succ j =>
      have h0 : ¬(ar k0 < 0) := by
        have := hpre 0 (Nat.succ_pos j)
        simp at this
        omega
      rw [addWatches]
      simp only [if_neg h0]
      exact ih (k0 + 1) _ _ _ j (by simpa using hk)
        (fun j' hj' => by
          have := hpre (j' + 1) (by omega)
          have heq : k0 + (j' + 1) = k0 + 1 + j' := by omega
          rwa [heq] at this)
        (by
          have heq : k0 + (j + 1) = k0 + 1 + j := by omega
          rwa [heq] at hfail)

theorem decodeLoop_truncated_name (wd mask cookie nameLen : Nat) (nm : List Nat)
    (h32 : nameLen < 2 ^ 32) (hlen : nm.length < nameLen) :
    decodeLoop (encodeHeader wd mask cookie nameLen ++ nm) =
      ([], some PyError.structError) := by
  have hL : encodeHeader wd mask cookie nameLen ++ nm =
      wd % 256 :: wd / 256 % 256 :: wd / 65536 % 256 :: wd / 16777216 % 256 ::
      mask % 256 :: mask / 256 % 256 :: mask / 65536 % 256 :: mask / 16777216 % 256 ::
      cookie % 256 :: cookie / 256 % 256 :: cookie / 65536 % 256 ::
      cookie / 16777216 % 256 ::
      nameLen % 256 :: nameLen / 256 % 256 :: nameLen / 65536 % 256 ::
      nameLen / 16777216 % 256 :: nm := by
    simp [encodeHeader, encodeU32]
  have hlen2 : (encodeHeader wd mask cookie nameLen ++ nm).length =
      (nm.length + 15) + 1 := by
    simp [encodeHeader, encodeU32]
  unfold decodeLoop
  rw [hlen2, hL]
  simp only [decodeSteps]
  rw [encode_le32 nameLen h32]
  have hne : (nm.take nameLen).length ≠ nameLen := by
    simp only [List.length_take]
    omega
  rw [if_neg hne]

-- The claims.

/-- C1 (counterexample): a single well-formed record whose `mask` is
`0x1000` — a u32 value whose set bit has no catalog entry — decodes to zero
events and a `KeyError` from the unguarded `InotifyMaskNames[item]` lookup,
not to one event as the claim requires. -/
theorem decode_undefined_mask_bit_fails :
    decodeLoop (encodeBuffer [badMaskRecord]) = ([], some PyError.keyError) := by
  have h : encodeBuffer [badMaskRecord] = encodeRecord badMaskRecord ++ [] := by
    simp [encodeBuffer]
  rw [h]
  exact decodeLoop_step_badmask badMaskRecord [] (by decide) PyError.keyError (by decide)

/-- C1 (amended): for every buffer that is a well-formed concatenation of N
records whose masks only set catalog-defined bits and whose NUL-stripped
names are valid UTF-8, the `read_events` buffer walk produces exactly the N
decoded events, in buffer order, each with its name equal to the raw name
bytes with all trailing NUL bytes stripped (then UTF-8 decoded); in
particular the empty buffer (N = 0) produces zero events and no error. -/
theorem decode_wellformed_buffer (recs : List RawRecord)
    (hwf : ∀ r ∈ recs, r.wf)
    (hmask : ∀ r ∈ recs, exceptIsOk (mask_to_event_names r.mask) = true)
    (hname : ∀ r ∈ recs, (utf8Decode (rstripNul r.name)).isSome = true) :
    decodeLoop (encodeBuffer recs) = (recs.map expectedEvent, none) := by
  have h := decodeLoop_encode_append recs [] hwf hmask hname
  simpa [decodeLoop_nil] using h

/-- C1 (witness): the spec's example — one record with `nameLen = 16` and raw
name `"file.txt"` followed by eight NUL bytes decodes to one event named
`"file.txt"`. -/
theorem decode_wellformed_buffer_witness :
    decodeLoop (encodeBuffer [sampleRecord]) =
      ([InotifyEvent.mk 1 256 0 16 "file.txt" ["Subfile was created"]], none) := by
  have h := decode_wellformed_buffer [sampleRecord] (by decide) (by decide) (by decide)
  rw [h]
  decide

/-- C2: decoding a buffer made of well-formed records followed by a
truncated record — either a fixed header cut short, or a full header whose
declared `nameLen` exceeds the bytes that remain — yields exactly the events
of the leading well-formed records and fails with `struct.error` (the code's
`MalformedBuffer` condition); slicing never reads out of bounds and no event
is fabricated from the truncated record. -/
theorem decode_truncated_buffer_errors (recs : List RawRecord)
    (hwf : ∀ r ∈ recs, r.wf)
    (hmask : ∀ r ∈ recs, exceptIsOk (mask_to_event_names r.mask) = true)
    (hname : ∀ r ∈ recs, (utf8Decode (rstripNul r.name)).isSome = true) :
    (∀ tail : List Nat, tail ≠ [] → tail.length < 16 →
      decodeLoop (encodeBuffer recs ++ tail) =
        (recs.map expectedEvent, some PyError.structError)) ∧
    (∀ wd mask cookie nameLen : Nat, ∀ nm : List Nat, nameLen < 2 ^ 32 →
      nm.length < nameLen →
      decodeLoop (encodeBuffer recs ++ (encodeHeader wd mask cookie nameLen ++ nm)) =
        (recs.map expectedEvent, some PyError.structError)) := by
  constructor
  · intro tail hne hlt
    rw [decodeLoop_encode_append recs tail hwf hmask hname]
    rcases tail with _ | ⟨t0, ts⟩
    · exact absurd rfl hne
    have hdl : decodeLoop (t0 :: ts) = ([], some PyError.structError) := by
      have hstep : decodeLoop (t0 :: ts) = decodeSteps (ts.length + 1) (t0 :: ts) := rfl
      rw [hstep, decodeSteps_short ts.length (t0 :: ts) (by simp) hlt]
    rw [hdl]
    simp
  · intro wd mask cookie nameLen nm h32 hlen
    rw [decodeLoop_encode_append recs _ hwf hmask hname,
      decodeLoop_truncated_name wd mask cookie nameLen nm h32 hlen]
    simp

/-- C2 (witness): one good record, then a header declaring `nameLen = 5` with
only two name bytes present: the good record's event is produced and the
decoder fails with `struct.error` instead of reading past the end. -/
theorem decode_truncated_buffer_witness :
    decodeLoop (encodeBuffer [sampleRecord] ++ (encodeHeader 2 1 0 5 ++ [97, 98])) =
      ([sampleRecord].map expectedEvent, some PyError.structError) :=
  (decode_truncated_buffer_errors [sampleRecord] (by decide) (by decide) (by decide)).2
    2 1 0 5 [97, 98] (by decide) (by decide)

/-- C3 (counterexample): for mask `0x1000`, whose only set bit (position 12)
has no catalog entry, `mask_to_event_names` raises `KeyError` instead of
silently skipping the unknown bit; the function is not failure-free. -/
theorem mask_names_keyerror_on_unknown_bit :
    mask_to_event_names 4096 = Except.error PyError.keyError := by decide

/-- C3 (amended): `mask_to_event_names` examines bit positions 0..31 in
increasing order and, when every set bit of the mask is defined in the
catalog, returns the list of their catalog names in that order; but a set
bit that is not defined in the catalog makes it raise `KeyError` rather
than being silently skipped. -/
theorem mask_names_catalog_spec (mask : Nat) :
    ((∀ idx ∈ List.range 32, mask &&& 2 ^ idx > 0 →
        (List.lookup (2 ^ idx) maskNamesList).isSome = true) →
      mask_to_event_names mask = Except.ok (eventNamesOf mask)) ∧
    ((∃ idx ∈ List.range 32, mask &&& 2 ^ idx > 0 ∧
        List.lookup (2 ^ idx) maskNamesList = none) →
      mask_to_event_names mask = Except.error PyError.keyError) :=
  ⟨fun h => maskNamesLoop_ok mask (List.range 32) h,
   fun h => maskNamesLoop_err mask (List.range 32) h⟩

/-- C3 (witness): mask `3` has both its set bits in the catalog, so the
lookup succeeds and returns their names in bit order. -/
theorem mask_names_catalog_witness :
    mask_to_event_names 3 = Except.ok (eventNamesOf 3) :=
  (mask_names_catalog_spec 3).1 (by decide)

/-- C4 (counterexample): a decoded queue-overflow record (`wd = -1`,
mask `IN_Q_OVERFLOW`) is not delivered to the handler at all: `handle_events`
raises `KeyError` on `watches[-1]` and the handler trace is empty — there is
no synthetic `Overflow` event. -/
theorem overflow_event_dropped_counterexample :
    (handle_events [overflowEvent] [(1, "d")]).1 = [] ∧
    (handle_events [overflowEvent] [(1, "d")]).2 = some PyError.keyError := by
  decide

/-- C4 (amended): a decoded record whose mask has the `IN_Q_OVERFLOW` bit set
and whose handle is absent from the watch registry makes the dispatch loop
raise `KeyError` at the registry lookup; the handler is never invoked for it
(no synthetic `Overflow` event exists in the code). -/
theorem overflow_event_keyerror (e : InotifyEvent) (rest : List InotifyEvent)
    (watches : List (Int × String))
    (_hov : e.mask &&& IN_Q_OVERFLOW ≠ 0)
    (habs : List.lookup e.wd watches = none) :
    handle_events (e :: rest) watches = ([], some PyError.keyError) := by
  simp [handle_events, habs]

/-- C4 (witness): the overflow record at the head of a queue that also holds
a resolvable event: dispatch raises `KeyError` and delivers nothing. -/
theorem overflow_event_keyerror_witness :
    handle_events [overflowEvent, knownEvent] [(1, "d")] =
      ([], some PyError.keyError) :=
  overflow_event_keyerror overflowEvent [knownEvent] [(1, "d")] (by decide) (by decide)

/-- C5 (counterexample): a queue holding an event with an unregistered handle
followed by an event with a registered handle: dispatch raises `KeyError`,
invokes the handler for neither, and in particular does not dispatch the
remaining event of the batch. -/
theorem unknown_watch_aborts_counterexample :
    (handle_events [unknownEvent, knownEvent] [(1, "d")]).1 = [] ∧
    (handle_events [unknownEvent, knownEvent] [(1, "d")]).2 =
      some PyError.keyError := by
  decide

/-- C5 (amended): for a decoded event whose handle is absent from the watch
registry, resolving the handle fails (`KeyError`, the code's `UnknownWatch`
condition), but the dispatcher does not tolerate it: the drain loop aborts
with the error, the handler is not invoked for that event, and the remaining
events of the same batch are not dispatched either. -/
theorem unknown_watch_keyerror_aborts (e : InotifyEvent) (rest : List InotifyEvent)
    (watches : List (Int × String))
    (habs : List.lookup e.wd watches = none) :
    handle_events (e :: rest) watches = ([], some PyError.keyError) := by
  simp [handle_events, habs]

/-- C5 (witness): concrete instance of the aborting dispatch. -/
theorem unknown_watch_keyerror_witness :
    handle_events [unknownEvent] [(1, "d")] = ([], some PyError.keyError) :=
  unknown_watch_keyerror_aborts unknownEvent [] [(1, "d")] (by decide)

/-- C6 (counterexample): watching `["a", "b"]` where registering `"b"` fails:
the watch for `"a"` was added (it is in the registry), yet no
`inotify_rm_watch` call is made and the kernel endpoint fd is never closed,
because the registration loop runs before the `try`/`finally`. -/
theorem watch_partial_failure_leaks :
    (watchRun (Dirs.many ["a", "b"]) none 3
      (fun k => if k = 0 then 1 else -1) none).closed = false ∧
    (watchRun (Dirs.many ["a", "b"]) none 3
      (fun k => if k = 0 then 1 else -1) none).rmCalls = [] ∧
    (watchRun (Dirs.many ["a", "b"]) none 3
      (fun k => if k = 0 then 1 else -1) none).watches = [(1, "a")] := by
  decide

/-- C6 (amended): when establishing a watch for a later directory in the same
`watch` call fails, the whole call fails with `OSError`, but no cleanup runs:
the kernel notification endpoint is not released (`closed = false`) and the
watches added before the failing one are not removed (`rmCalls = []`),
because the registration loop sits outside the `try`/`finally`. -/
theorem watch_partial_failure_behavior (dirs : List String)
    (watch_for : Option Nat) (ir : Int) (ar : Nat → Int) (lo : Option PyError)
    (k : Nat) (hir : ir > 0) (hk : k < dirs.length)
    (hpre : ∀ j, j < k → 0 ≤ ar j) (hfail : ar k < 0) :
    (watchRun (Dirs.many dirs) watch_for ir ar lo).outcome =
      some WatchError.watchFailed ∧
    (watchRun (Dirs.many dirs) watch_for ir ar lo).closed = false ∧
    (watchRun (Dirs.many dirs) watch_for ir ar lo).rmCalls = [] := by
  have hflag := addWatches_fail (watchMaskFor watch_for) ar dirs 0 [] [] none k hk
    (fun j hj => by simpa using hpre j hj) (by simpa using hfail)
  unfold watchRun
  rw [if_pos hir]
  simp [normalizeDirs, hflag]

/-- C6 (witness): concrete two-directory instance where the second
registration fails. -/
theorem watch_partial_failure_witness :
    (watchRun (Dirs.many ["a", "b"]) none 3
      (fun k => if k = 0 then 1 else -1) none).outcome =
      some WatchError.watchFailed ∧
    (watchRun (Dirs.many ["a", "b"]) none 3
      (fun k => if k = 0 then 1 else -1) none).closed = false ∧
    (watchRun (Dirs.many ["a", "b"]) none 3
      (fun k => if k = 0 then 1 else -1) none).rmCalls = [] :=
  watch_partial_failure_behavior ["a", "b"] none 3
    (fun k => if k = 0 then 1 else -1) none 1 (by decide) (by decide)
    (fun j hj => by
      have hj0 : j = 0 := by omega
      subst hj0
      decide)
    (by decide)

/-- C7: end-to-end order preservation — the queue built by any sequence of
reads is exactly the concatenation of the per-buffer decoded record lists in
order, and when every queued record's handle resolves in the registry,
`handle_events` invokes the handler exactly once per record, in exactly that
order, pairing each record with its resolved directory, with no error. -/
theorem dispatch_preserves_order (bufs : List (List Nat))
    (watches : List (Int × String)) (dirOf : Int → String)
    (hres : ∀ e ∈ read_all bufs, List.lookup e.wd watches = some (dirOf e.wd)) :
    handle_events (read_all bufs) watches =
      ((read_all bufs).map (fun e => (e, dirOf e.wd)), none) ∧
    read_all bufs = (bufs.map (fun b => (decodeLoop b).1)).flatten :=
  ⟨handle_events_resolved watches dirOf (read_all bufs) hres, read_all_eq bufs⟩

/-- C7 (witness): one read of a one-record buffer, registry `[(1, "w")]`:
the handler is invoked once, with the decoded record and `"w"`. -/
theorem dispatch_preserves_order_witness :
    handle_events (read_all [sampleBuffer]) [(1, "w")] =
      ((read_all [sampleBuffer]).map (fun e => (e, "w")), none) ∧
    read_all [sampleBuffer] =
      ([sampleBuffer].map (fun b => (decodeLoop b).1)).flatten :=
  dispatch_preserves_order [sampleBuffer] [(1, "w")] (fun _ => "w") (by decide)

/-- C8: when `watch_for` is `None`, the registration mask defaults to
`IN_ALL_EVENTS`, which is exactly the bitwise OR of the twelve requestable
event flags (value `0xFFF`) and has none of the report-only bits
`IN_UNMOUNT`, `IN_Q_OVERFLOW`, `IN_IGNORED` set. -/
theorem default_watch_mask_spec :
    watchMaskFor none = (IN_ACCESS ||| IN_MODIFY ||| IN_ATTRIB ||| IN_CLOSE_WRITE |||
      IN_CLOSE_NOWRITE ||| IN_OPEN ||| IN_MOVED_FROM ||| IN_MOVED_TO ||| IN_DELETE |||
      IN_CREATE ||| IN_DELETE_SELF ||| IN_MOVE_SELF) ∧
    watchMaskFor none = 4095 ∧
    watchMaskFor none &&& IN_UNMOUNT = 0 ∧
    watchMaskFor none &&& IN_Q_OVERFLOW = 0 ∧
    watchMaskFor none &&& IN_IGNORED = 0 := by
  decide

/-- C9: a record whose NUL-stripped name bytes are not valid UTF-8 makes the
decoder raise `UnicodeDecodeError` instead of producing an event for that
record: only the well-formed records before it yield events, and nothing
after it is decoded. -/
theorem decode_invalid_utf8_errors (recs : List RawRecord) (r : RawRecord)
    (more : List Nat)
    (hwf : ∀ x ∈ recs, x.wf)
    (hmask : ∀ x ∈ recs, exceptIsOk (mask_to_event_names x.mask) = true)
    (hname : ∀ x ∈ recs, (utf8Decode (rstripNul x.name)).isSome = true)
    (hrwf : r.wf) (ns : List String)
    (hrmask : mask_to_event_names r.mask = Except.ok ns)
    (hbad : utf8Decode (rstripNul r.name) = none) :
    decodeLoop (encodeBuffer recs ++ (encodeRecord r ++ more)) =
      (recs.map expectedEvent, some PyError.unicodeDecodeError) := by
  rw [decodeLoop_encode_append recs _ hwf hmask hname,
    decodeLoop_step_badname r more hrwf ns hrmask hbad]
  simp

/-- C9 (witness): a record whose single name byte `0xFF` is not UTF-8
yields no event and the `UnicodeDecodeError`. -/
theorem decode_invalid_utf8_witness :
    decodeLoop (encodeBuffer [] ++ (encodeRecord badNameRecord ++ [])) =
      (([] : List RawRecord).map expectedEvent, some PyError.unicodeDecodeError) :=
  decode_invalid_utf8_errors [] badNameRecord [] (by decide) (by decide) (by decide)
    (by decide) [] (by decide) (by decide)

/-- C10: calling `watch` with a single directory `Path` is observably
identical to calling it with the one-element list of that `Path`: the
`isinstance` normalization makes every later step coincide, for every
stubbed kernel behavior. -/
theorem watch_single_path_normalizes (d : String) (watch_for : Option Nat)
    (ir : Int) (ar : Nat → Int) (lo : Option PyError) :
    watchRun (Dirs.single d) watch_for ir ar lo =
      watchRun (Dirs.many [d]) watch_for ir ar lo := rfl
